import Mathlib

/-!
Verification development for the Heimer mind-map editor sources.

Shallow embedding of:
  - the edge geometry engine of the `Edge` scene item
    (src/view/scene_items/edge.cpp): segment construction (`Edge::updateLine`),
    arrowhead construction (`Edge::updateSingleArrowhead`,
    `Edge::updateDoubleArrowhead`, `Edge::updateHiddenArrowhead`,
    `Edge::updateArrowhead`), connection-dot pulse retriggering
    (`Edge::updateDots`), and the label visibility state machine
    (`Edge::setLabelVisible`);
  - the mind-map serializer (src/editor/serializer.cpp).

Floating point (`double` / `float`) is idealised as the real numbers; the
fuzzy comparisons of Qt (`qFuzzyCompare` in `QPointF::operator==`,
`QVector2D::normalize`, `QLineF::angle`) are idealised as exact comparisons.
Label bounding boxes and node bounds are idealised over the integers so that
the label state machine stays executable; serializer locations are idealised
over the rationals.
-/

namespace Heimer

/-- A 2D point, embedding `QPointF` (coordinates idealised as reals). -/
@[ext]
structure Point where
  x : ℝ
  y : ℝ

instance : Add Point := ⟨fun a b => ⟨a.x + b.x, a.y + b.y⟩⟩

instance : Sub Point := ⟨fun a b => ⟨a.x - b.x, a.y - b.y⟩⟩

instance : SMul ℝ Point := ⟨fun c p => ⟨c * p.x, c * p.y⟩⟩

/-- Euclidean length of a point seen as a vector (`QVector2D::length`). -/
noncomputable def Point.norm (p : Point) : ℝ :=
  Real.sqrt (p.x ^ 2 + p.y ^ 2)

open Classical in
/-- `QVector2D::normalize`: a zero vector is left unchanged (the guard in Qt
checks the length against zero before dividing), so the degenerate case
yields `(0, 0)` and no division by zero happens. -/
noncomputable def normalize (v : Point) : Point :=
  if v = ⟨0, 0⟩ then ⟨0, 0⟩ else ⟨v.x / v.norm, v.y / v.norm⟩

/-- A 2D segment, embedding `QLineF` with endpoints `p1` and `p2`. -/
structure Line where
  p1 : Point
  p2 : Point

/-- Two-argument arctangent, embedded via the complex argument:
`atan2 y x = arg (x + y*I)`, which is `0` at the origin exactly as the C
library function is. -/
noncomputable def atan2 (y x : ℝ) : ℝ :=
  Complex.arg ⟨x, y⟩

open Classical in
/-- `QLineF::angle`: the direction of the line in degrees, counter-clockwise
in a y-down coordinate system, normalised into `[0, 360)`.  For a zero-length
line `atan2 0 0 = 0`, so the angle degenerates to `0`.  (The `qFuzzyCompare`
test against 360 in Qt can never fire over exact reals because the
arctangent lies in `(-180, 180]`.) -/
noncomputable def lineAngle (l : Line) : ℝ :=
  let dx := l.p2.x - l.p1.x
  let dy := l.p2.y - l.p1.y
  let theta := atan2 (-dy) dx * 180 / Real.pi
  if theta < 0 then theta + 360 else theta

/-- `qDegreesToRadians`. -/
noncomputable def qDegreesToRadians (degrees : ℝ) : ℝ :=
  degrees * Real.pi / 180

/-- `EdgeModel::ArrowMode` (values as used in `Edge::updateArrowhead`). -/
inductive ArrowMode
  | Hidden
  | Single
  | Double
  deriving DecidableEq

/-- `EdgeModel::Style`, with the fields `Edge` reads and writes. -/
structure EdgeStyle where
  arrowMode : ArrowMode
  arrowSize : ℝ
  edgeWidth : ℝ
  dashedLine : Bool

/-- `EdgeModel`, with the fields `Edge` reads and writes. -/
structure EdgeModel where
  reversed : Bool
  text : String
  style : EdgeStyle

/-- The per-node data `Edge::updateLine` consumes from its endpoint nodes:
`pos()` and `cornerRadius()`. -/
structure NodeGeometry where
  pos : Point
  cornerRadius : ℝ

/-- One element of the pair returned by the external query
`Node::getNearestEdgePoints` (node.cpp, not among the given sources): a
location relative to the node position plus the `isCorner` flag. -/
structure AnchorPoint where
  location : Point
  isCorner : Bool

/-- Modelled from the spec: the contract of the external nearest-edge-point
query `Node::getNearestEdgePoints` (node.cpp is not among the given sources).
Per the spec, `isCorner` is true only when the nearest boundary point lies on
a rounded-corner arc, and such an arc exists only when the corner radius of
the owning node is positive. -/
def AnchorPoint.respectsCornerContract (cornerRadius : ℝ) (a : AnchorPoint) : Prop :=
  a.isCorner = true → 0 < cornerRadius

/-- One `QGraphicsLineItem` of the arrowhead: its line and visibility. -/
structure LineItem where
  line : Line
  visible : Bool

/-- The four arrowhead wing items of an `Edge`. -/
structure ArrowheadItems where
  arrowheadBeginLeft : LineItem
  arrowheadBeginRight : LineItem
  arrowheadEndLeft : LineItem
  arrowheadEndRight : LineItem

/-- `Edge::updateSingleArrowhead`: two wings at the begin end
(`reversed ? p1 : p2` of the current line), each built from the endpoint plus
a unit vector at `angleBegin ± 150` degrees scaled by `arrowSize`; the two
end items are hidden and keep their previous lines. -/
noncomputable def updateSingleArrowhead (model : EdgeModel) (line : Line)
    (st : ArrowheadItems) : ArrowheadItems :=
  let reversedEdge := model.reversed
  let pointBegin := if reversedEdge then line.p1 else line.p2
  let arrowOpening : ℝ := 150
  let angleBegin := if reversedEdge then -(lineAngle line) + 180 else -(lineAngle line)
  let angleLeft := qDegreesToRadians (angleBegin + arrowOpening)
  let angleRight := qDegreesToRadians (angleBegin - arrowOpening)
  { arrowheadBeginLeft :=
      ⟨⟨pointBegin, pointBegin + model.style.arrowSize • (⟨Real.cos angleLeft, Real.sin angleLeft⟩ : Point)⟩, true⟩
    arrowheadBeginRight :=
      ⟨⟨pointBegin, pointBegin + model.style.arrowSize • (⟨Real.cos angleRight, Real.sin angleRight⟩ : Point)⟩, true⟩
    arrowheadEndLeft := { st.arrowheadEndLeft with visible := false }
    arrowheadEndRight := { st.arrowheadEndRight with visible := false } }

/-- `Edge::updateDoubleArrowhead`: wings at both ends; the end wings use the
180-degree rotated angle convention. -/
noncomputable def updateDoubleArrowhead (model : EdgeModel) (line : Line)
    (_st : ArrowheadItems) : ArrowheadItems :=
  let reversedEdge := model.reversed
  let pointBegin := if reversedEdge then line.p1 else line.p2
  let arrowOpening : ℝ := 150
  let angleBegin := if reversedEdge then -(lineAngle line) + 180 else -(lineAngle line)
  let angleBeginLeft := qDegreesToRadians (angleBegin + arrowOpening)
  let angleBeginRight := qDegreesToRadians (angleBegin - arrowOpening)
  let pointEnd := if reversedEdge then line.p2 else line.p1
  let angleEnd := if reversedEdge then -(lineAngle line) else -(lineAngle line) + 180
  let angleEndLeft := qDegreesToRadians (angleEnd + arrowOpening)
  let angleEndRight := qDegreesToRadians (angleEnd - arrowOpening)
  { arrowheadBeginLeft :=
      ⟨⟨pointBegin, pointBegin + model.style.arrowSize • (⟨Real.cos angleBeginLeft, Real.sin angleBeginLeft⟩ : Point)⟩, true⟩
    arrowheadBeginRight :=
      ⟨⟨pointBegin, pointBegin + model.style.arrowSize • (⟨Real.cos angleBeginRight, Real.sin angleBeginRight⟩ : Point)⟩, true⟩
    arrowheadEndLeft :=
      ⟨⟨pointEnd, pointEnd + model.style.arrowSize • (⟨Real.cos angleEndLeft, Real.sin angleEndLeft⟩ : Point)⟩, true⟩
    arrowheadEndRight :=
      ⟨⟨pointEnd, pointEnd + model.style.arrowSize • (⟨Real.cos angleEndRight, Real.sin angleEndRight⟩ : Point)⟩, true⟩ }

/-- `Edge::updateHiddenArrowhead`: all four wing items hidden, lines kept. -/
def updateHiddenArrowhead (st : ArrowheadItems) : ArrowheadItems :=
  { arrowheadBeginLeft := { st.arrowheadBeginLeft with visible := false }
    arrowheadBeginRight := { st.arrowheadBeginRight with visible := false }
    arrowheadEndLeft := { st.arrowheadEndLeft with visible := false }
    arrowheadEndRight := { st.arrowheadEndRight with visible := false } }

/-- `Edge::updateArrowhead` (the pen update is presentational and omitted). -/
noncomputable def updateArrowhead (model : EdgeModel) (line : Line)
    (st : ArrowheadItems) : ArrowheadItems :=
  match model.style.arrowMode with
  | ArrowMode.Single => updateSingleArrowhead model line st
  | ArrowMode.Double => updateDoubleArrowhead model line st
  | ArrowMode.Hidden => updateHiddenArrowhead st

/-- Mutable state of `Edge::updateDots`: the previous relative endpoint
positions used for change detection, the dot positions, and per call whether
the decay animation was stopped and restarted during that call. -/
structure DotsState where
  previousRelativeSourcePos : Point
  previousRelativeTargetPos : Point
  sourceDotPos : Point
  targetDotPos : Point
  sourceAnimationRestarted : Bool
  targetAnimationRestarted : Bool

open Classical in
/-- `Edge::updateDots`: for each endpoint, compare the endpoint position
relative to the owning node position with the recorded value; on a change,
record the new value and stop and restart the decay animation (modelled by
the `...AnimationRestarted` flags of the resulting state); then move the dot
to the endpoint.  `QPointF` comparison is idealised as exact equality. -/
noncomputable def updateDots (enableAnimations : Bool) (line : Line)
    (sourceNodePos targetNodePos : Point) (st : DotsState) : DotsState :=
  if enableAnimations then
    let newRelativeSourcePos := line.p1 - sourceNodePos
    let newRelativeTargetPos := line.p2 - targetNodePos
    { previousRelativeSourcePos :=
        if st.previousRelativeSourcePos = newRelativeSourcePos then
          st.previousRelativeSourcePos
        else newRelativeSourcePos
      previousRelativeTargetPos :=
        if st.previousRelativeTargetPos = newRelativeTargetPos then
          st.previousRelativeTargetPos
        else newRelativeTargetPos
      sourceDotPos := line.p1
      targetDotPos := line.p2
      sourceAnimationRestarted :=
        if st.previousRelativeSourcePos = newRelativeSourcePos then false else true
      targetAnimationRestarted :=
        if st.previousRelativeTargetPos = newRelativeTargetPos then false else true }
  else st

/-- The geometry-bearing children of an `Edge`: the body line, the four
arrowhead items and the dot state.  (The labels are modelled separately, see
the label state machine below.) -/
structure EdgeItems where
  line : Line
  arrowheads : ArrowheadItems
  dots : DotsState

/-- `Edge::updateLine`, the single geometry recomputation entry point:
translate the nearest-edge-point anchors to scene coordinates, apply the
corner nudge (`0.3 * cornerRadius` along the direction towards the own node)
on each `isCorner` anchor, shrink the target endpoint by
`0.5 * edgeWidth` along the target direction, then refresh dots and
arrowheads from the new line.  The pen and the label placement are
presentational and modelled separately. -/
noncomputable def updateLine (model : EdgeModel) (sourceNode targetNode : NodeGeometry)
    (nearestPoints : AnchorPoint × AnchorPoint) (enableAnimations : Bool)
    (st : EdgeItems) : EdgeItems :=
  let p1 := nearestPoints.1.location + sourceNode.pos
  let direction1 := normalize (sourceNode.pos - p1)
  let p2 := nearestPoints.2.location + targetNode.pos
  let direction2 := normalize (targetNode.pos - p2)
  let widthScale : ℝ := 0.5
  let cornerRadiusScale : ℝ := 0.3
  let newLine : Line :=
    ⟨p1 + (if nearestPoints.1.isCorner then
            cornerRadiusScale • (sourceNode.cornerRadius • direction1)
          else ⟨0, 0⟩),
     p2 + (if nearestPoints.2.isCorner then
            cornerRadiusScale • (targetNode.cornerRadius • direction2)
          else ⟨0, 0⟩)
        - widthScale • (model.style.edgeWidth • direction2)⟩
  { line := newLine
    dots := updateDots enableAnimations newLine sourceNode.pos targetNode.pos st.dots
    arrowheads := updateArrowhead model newLine st.arrowheads }

/-- The amended C1 property of a recompute result with Single arrow mode:
both begin wings visible and anchored at the begin end — `line.p2`, the
target-near end, unless `reversed`, in which case `line.p1`, the source-near
end — each wing tip equal to the anchor plus a vector at
`angleBegin ± 150` degrees scaled by `arrowSize` and lying at distance
`arrowSize` from the anchor; both end wings hidden. -/
def singleArrowheadSpec (model : EdgeModel) (r : EdgeItems) : Prop :=
  let pointBegin := if model.reversed then r.line.p1 else r.line.p2
  let angleBegin := if model.reversed then -(lineAngle r.line) + 180 else -(lineAngle r.line)
  r.arrowheads.arrowheadBeginLeft.visible = true
  ∧ r.arrowheads.arrowheadBeginRight.visible = true
  ∧ r.arrowheads.arrowheadEndLeft.visible = false
  ∧ r.arrowheads.arrowheadEndRight.visible = false
  ∧ r.arrowheads.arrowheadBeginLeft.line.p1 = pointBegin
  ∧ r.arrowheads.arrowheadBeginRight.line.p1 = pointBegin
  ∧ r.arrowheads.arrowheadBeginLeft.line.p2
      = pointBegin + model.style.arrowSize •
          (⟨Real.cos (qDegreesToRadians (angleBegin + 150)),
            Real.sin (qDegreesToRadians (angleBegin + 150))⟩ : Point)
  ∧ r.arrowheads.arrowheadBeginRight.line.p2
      = pointBegin + model.style.arrowSize •
          (⟨Real.cos (qDegreesToRadians (angleBegin - 150)),
            Real.sin (qDegreesToRadians (angleBegin - 150))⟩ : Point)
  ∧ Point.norm (r.arrowheads.arrowheadBeginLeft.line.p2 - pointBegin)
      = model.style.arrowSize
  ∧ Point.norm (r.arrowheads.arrowheadBeginRight.line.p2 - pointBegin)
      = model.style.arrowSize

/-- A sample edge model with Single arrow mode, not reversed, arrow size 10
and edge width 0. -/
noncomputable def sampleSingleModel : EdgeModel :=
  { reversed := false
    text := ""
    style := { arrowMode := ArrowMode.Single, arrowSize := 10, edgeWidth := 0, dashedLine := false } }

/-- A sample source node at the origin with square corners. -/
noncomputable def sampleSourceNode : NodeGeometry :=
  { pos := ⟨0, 0⟩, cornerRadius := 0 }

/-- A sample target node at (100, 0) with square corners. -/
noncomputable def sampleTargetNode : NodeGeometry :=
  { pos := ⟨100, 0⟩, cornerRadius := 0 }

/-- Sample non-corner anchors: (10, 0) relative to the source node and
(-10, 0) relative to the target node. -/
noncomputable def sampleAnchors : AnchorPoint × AnchorPoint :=
  (⟨⟨10, 0⟩, false⟩, ⟨⟨-10, 0⟩, false⟩)

/-- A dot state with everything zeroed. -/
noncomputable def initialDotsState : DotsState :=
  ⟨⟨0, 0⟩, ⟨0, 0⟩, ⟨0, 0⟩, ⟨0, 0⟩, false, false⟩

/-- A line item holding a degenerate line, hidden. -/
noncomputable def initialLineItem : LineItem :=
  ⟨⟨⟨0, 0⟩, ⟨0, 0⟩⟩, false⟩

/-- Edge items with everything zeroed. -/
noncomputable def initialEdgeItems : EdgeItems :=
  ⟨⟨⟨0, 0⟩, ⟨0, 0⟩⟩,
   ⟨initialLineItem, initialLineItem, initialLineItem, initialLineItem⟩,
   initialDotsState⟩

/-- An axis-aligned rectangle, embedding `QRectF` (coordinates idealised as
integers so that intersection tests stay kernel-evaluable; the intersection
logic below only uses addition and order, so nothing depends on density of
the coordinate field). -/
structure Rect where
  x : ℤ
  y : ℤ
  w : ℤ
  h : ℤ
  deriving DecidableEq

/-- The normalised left edge of a rectangle, as computed inside
`QRectF::intersects` (`if w < 0 then x + w else x`, that is, the minimum of
`x` and `x + w`). -/
def Rect.left (r : Rect) : ℤ := min r.x (r.x + r.w)

/-- The normalised right edge of a rectangle (`QRectF::intersects`). -/
def Rect.right (r : Rect) : ℤ := max r.x (r.x + r.w)

/-- The normalised top edge of a rectangle (`QRectF::intersects`). -/
def Rect.top (r : Rect) : ℤ := min r.y (r.y + r.h)

/-- The normalised bottom edge of a rectangle (`QRectF::intersects`). -/
def Rect.bottom (r : Rect) : ℤ := max r.y (r.y + r.h)

/-- `QRectF::intersects`: false when either rectangle has zero width or
height, otherwise true exactly when the interiors overlap in both axes (the
early-return chain of Qt is written as one conjunction). -/
def Rect.intersects (a b : Rect) : Bool :=
  !decide (a.left = a.right) && !decide (b.left = b.right)
    && decide (a.left < b.right) && decide (b.left < a.right)
    && !decide (a.top = a.bottom) && !decide (b.top = b.bottom)
    && decide (a.top < b.bottom) && decide (b.top < a.bottom)

/-- `EdgeTextEdit::VisibilityChangeReason` (edge_text_edit.hpp is not among
the given sources; the constructor names follow the call sites in edge.cpp
and the spec). -/
inductive VisibilityChangeReason
  | Explicit
  | Focused
  | Timeout
  | AvailableSpaceChanged
  deriving DecidableEq

/-- The inputs `Edge::setLabelVisible` reads: the scene bounding boxes of the
two labels and the two endpoint nodes, whether each label has been added to a
scene, the label texts, and whether the label holds input focus. -/
structure LabelEnv where
  labelSceneBoundingRect : Rect
  dummyLabelSceneBoundingRect : Rect
  sourceNodeSceneBoundingRect : Rect
  targetNodeSceneBoundingRect : Rect
  labelHasScene : Bool
  dummyLabelHasScene : Bool
  labelText : String
  dummyLabelText : String
  labelHasFocus : Bool

/-- The visibility flags of the label and the dummy label. -/
structure LabelState where
  labelVisible : Bool
  dummyLabelVisible : Bool
  deriving DecidableEq

/-- `isEnoughSpaceForLabel` in `Edge::setLabelVisible`: the label is in a
scene and its scene bounding box intersects neither endpoint node. -/
def isEnoughSpaceForLabel (env : LabelEnv) : Bool :=
  env.labelHasScene
    && !(env.labelSceneBoundingRect.intersects env.sourceNodeSceneBoundingRect)
    && !(env.labelSceneBoundingRect.intersects env.targetNodeSceneBoundingRect)

/-- `dummyLabelTextIsShoterThanLabelText` in `Edge::setLabelVisible`
(the spelling follows the source). -/
def dummyLabelTextIsShoterThanLabelText (env : LabelEnv) : Bool :=
  decide (env.dummyLabelText.length < env.labelText.length)

/-- `isEnoughSpaceForDummyLabel` in `Edge::setLabelVisible`. -/
def isEnoughSpaceForDummyLabel (env : LabelEnv) : Bool :=
  env.dummyLabelHasScene
    && !(env.dummyLabelSceneBoundingRect.intersects env.sourceNodeSceneBoundingRect)
    && !(env.dummyLabelSceneBoundingRect.intersects env.targetNodeSceneBoundingRect)

/-- `Edge::setLabelVisible`: the label visibility transition function.  The
`Focused` branch also reparents the label and refreshes its shadow effect;
those actions do not touch the visibility flags and are omitted. -/
def setLabelVisible (env : LabelEnv) (visible : Bool)
    (vcr : VisibilityChangeReason) (st : LabelState) : LabelState :=
  match vcr with
  | VisibilityChangeReason.AvailableSpaceChanged =>
      let isLabelVisible := isEnoughSpaceForLabel env && !env.labelText.isEmpty
      { labelVisible := isLabelVisible
        dummyLabelVisible :=
          !isLabelVisible && isEnoughSpaceForDummyLabel env
            && dummyLabelTextIsShoterThanLabelText env }
  | VisibilityChangeReason.Explicit =>
      { labelVisible := visible, dummyLabelVisible := visible }
  | VisibilityChangeReason.Focused =>
      if visible then { labelVisible := true, dummyLabelVisible := false } else st
  | VisibilityChangeReason.Timeout =>
      if !visible then
        if (env.labelText.isEmpty
              || (!env.labelText.isEmpty && !isEnoughSpaceForLabel env))
            && !env.labelHasFocus then
          { labelVisible := false
            dummyLabelVisible :=
              isEnoughSpaceForDummyLabel env && dummyLabelTextIsShoterThanLabelText env }
        else st
      else st

/-- The three label visibility states named by the spec. -/
inductive LabelVisibilityState
  | Hidden
  | Visible
  | DummyVisible
  deriving DecidableEq

/-- Reading of a visibility-flag pair as one of the three spec states (the
real label, drawn above the dummy, wins when both flags are set). -/
def LabelState.visibilityState (st : LabelState) : LabelVisibilityState :=
  if st.labelVisible then LabelVisibilityState.Visible
  else if st.dummyLabelVisible then LabelVisibilityState.DummyVisible
  else LabelVisibilityState.Hidden

/-- Formalisation of the spec wording for the `AvailableSpaceChanged`
transition: Visible when the label box overlaps neither node and the text is
non-empty; otherwise DummyVisible when the dummy box overlaps neither node
and the dummy text is strictly shorter than the real text; otherwise
Hidden. -/
def specAvailableSpaceChanged (env : LabelEnv) : LabelVisibilityState :=
  if !(env.labelSceneBoundingRect.intersects env.sourceNodeSceneBoundingRect)
      && !(env.labelSceneBoundingRect.intersects env.targetNodeSceneBoundingRect)
      && !env.labelText.isEmpty then
    LabelVisibilityState.Visible
  else if !(env.dummyLabelSceneBoundingRect.intersects env.sourceNodeSceneBoundingRect)
      && !(env.dummyLabelSceneBoundingRect.intersects env.targetNodeSceneBoundingRect)
      && decide (env.dummyLabelText.length < env.labelText.length) then
    LabelVisibilityState.DummyVisible
  else LabelVisibilityState.Hidden

/-- The label visibility timer (`m_labelVisibilityTimer`). -/
structure LabelVisibilityTimer where
  intervalMs : ℕ
  singleShot : Bool
  running : Bool

/-- The `labelDurationMs` constant of the `Edge` constructor. -/
def labelDurationMs : ℕ := 2000

/-- The timer as configured by the `Edge` constructor: single shot with a
2000 ms interval, not yet started. -/
def initLabelVisibilityTimer : LabelVisibilityTimer :=
  { intervalMs := labelDurationMs, singleShot := true, running := false }

/-- `Edge::hoverLeaveEvent` starts the label visibility timer. -/
def hoverLeaveEvent (t : LabelVisibilityTimer) : LabelVisibilityTimer :=
  { t with running := true }

/-- `Edge::hoverEnterEvent` stops the label visibility timer (the `Focused`
transition it fires is modelled by `setLabelVisible`). -/
def hoverEnterEvent (t : LabelVisibilityTimer) : LabelVisibilityTimer :=
  { t with running := false }

/-- A sample environment for concrete label-machine evaluations: both labels
are in the scene, both boxes are clear of both nodes, the dummy text is
strictly shorter than the label text, and the label is not focused. -/
def sampleLabelEnv : LabelEnv :=
  { labelSceneBoundingRect := ⟨200, 0, 10, 10⟩
    dummyLabelSceneBoundingRect := ⟨200, 20, 5, 5⟩
    sourceNodeSceneBoundingRect := ⟨0, 0, 50, 50⟩
    targetNodeSceneBoundingRect := ⟨100, 0, 50, 50⟩
    labelHasScene := true
    dummyLabelHasScene := true
    labelText := "hello"
    dummyLabelText := "..."
    labelHasFocus := false }

namespace Serializer

/-- The node fields the serializer reads and writes: index, location and
text (locations idealised over the rationals). -/
structure NodeData where
  index : ℤ
  locationX : ℚ
  locationY : ℚ
  text : String
  deriving DecidableEq

/-- One serialized node element: the `index`, `x` and `y` attributes (written
as integers) and the content of the child text element. -/
structure XmlNodeElement where
  indexAttribute : ℤ
  xAttribute : ℤ
  yAttribute : ℤ
  textContent : String
  deriving DecidableEq

/-- The `SCALE` constant of serializer.cpp. -/
def SCALE : ℚ := 1000

/-- `static_cast<int>` on a floating point value: truncation towards zero
(idealised over the rationals; integer overflow is out of model). -/
def truncateToInt (q : ℚ) : ℤ :=
  if 0 ≤ q then ⌊q⌋ else ⌈q⌉

/-- The per-node body of `writeNodes`: the location is scaled by `SCALE` and
truncated to an integer attribute; index and text are written as they are. -/
def writeNode (n : NodeData) : XmlNodeElement :=
  { indexAttribute := n.index
    xAttribute := truncateToInt (n.locationX * SCALE)
    yAttribute := truncateToInt (n.locationY * SCALE)
    textContent := n.text }

/-- `writeNodes` over the graph, as invoked by `Serializer::toXml`. -/
def toXml (nodes : List NodeData) : List XmlNodeElement :=
  nodes.map writeNode

/-- `readNode`: the integer attributes are divided by `SCALE` to recover the
location; index and text are read back as they are. -/
def readNode (e : XmlNodeElement) : NodeData :=
  { index := e.indexAttribute
    locationX := (e.xAttribute : ℚ) / SCALE
    locationY := (e.yAttribute : ℚ) / SCALE
    text := e.textContent }

/-- `Serializer::fromXml` over the node elements of the document. -/
def fromXml (doc : List XmlNodeElement) : List NodeData :=
  doc.map readNode

end Serializer

/-! ### Helper lemmas about points and norms -/

@[simp]
theorem point_add_x (a b : Point) : (a + b).x = a.x + b.x := rfl

@[simp]
theorem point_add_y (a b : Point) : (a + b).y = a.y + b.y := rfl

@[simp]
theorem point_sub_x (a b : Point) : (a - b).x = a.x - b.x := rfl

@[simp]
theorem point_sub_y (a b : Point) : (a - b).y = a.y - b.y := rfl

@[simp]
theorem point_smul_x (c : ℝ) (p : Point) : (c • p).x = c * p.x := rfl

@[simp]
theorem point_smul_y (c : ℝ) (p : Point) : (c • p).y = c * p.y := rfl

theorem point_smul_smul (c d : ℝ) (p : Point) : c • (d • p) = (c * d) • p := by
  ext <;> simp <;> ring

theorem point_add_sub_cancel_left (a b : Point) : (a + b) - a = b := by
  ext <;> simp

/-- The norm of a scaled point. -/
theorem point_norm_smul (c : ℝ) (p : Point) : (c • p).norm = |c| * p.norm := by
  unfold Point.norm
  have h1 : (c • p).x ^ 2 + (c • p).y ^ 2 = c ^ 2 * (p.x ^ 2 + p.y ^ 2) := by
    simp; ring
  rw [h1, Real.sqrt_mul (sq_nonneg c), Real.sqrt_sq_eq_abs]

/-- A unit vector built from a cosine-sine pair has norm one. -/
theorem point_norm_cos_sin (t : ℝ) :
    Point.norm ⟨Real.cos t, Real.sin t⟩ = 1 := by
  unfold Point.norm
  simp only
  rw [Real.cos_sq_add_sin_sq]
  exact Real.sqrt_one

/-- A nonzero vector normalises to a unit vector. -/
theorem norm_normalize (v : Point) (h : v ≠ ⟨0, 0⟩) : (normalize v).norm = 1 := by
  have hpos : 0 < v.x ^ 2 + v.y ^ 2 := by
    by_cases hx : v.x = 0
    · have hy : v.y ≠ 0 := fun hy => h (Point.ext hx hy)
      have := pow_two_pos_of_ne_zero hy
      nlinarith [sq_nonneg v.x]
    · have := pow_two_pos_of_ne_zero hx
      nlinarith [sq_nonneg v.y]
  have hn : 0 < v.norm := Real.sqrt_pos.mpr hpos
  have hsq : v.norm ^ 2 = v.x ^ 2 + v.y ^ 2 := Real.sq_sqrt hpos.le
  rw [normalize, if_neg h]
  show Real.sqrt ((v.x / v.norm) ^ 2 + (v.y / v.norm) ^ 2) = 1
  have hL : (v.x / v.norm) ^ 2 + (v.y / v.norm) ^ 2 = 1 := by
    have hne : v.norm ≠ 0 := ne_of_gt hn
    field_simp
    exact hsq.symm
  rw [hL]
  exact Real.sqrt_one

/-- The zero vector normalises to itself. -/
theorem normalize_zero : normalize ⟨0, 0⟩ = ⟨0, 0⟩ := by
  rw [normalize, if_pos rfl]

/-- Subtracting the base point of a backwards-shifted point leaves the
negated shift. -/
theorem point_sub_smul_sub_cancel (a d : Point) (c : ℝ) :
    (a - c • d) - a = (-c) • d := by
  ext <;> simp

/-- Cancelling an equal subtrahend on both sides. -/
theorem point_sub_right_cancel {a b c : Point} (h : a - c = b - c) : a = b := by
  ext
  · exact sub_left_inj.mp (congrArg Point.x h)
  · exact sub_left_inj.mp (congrArg Point.y h)

/-- After any `updateDots` run with animations on, the recorded relative
source position is the current one. -/
theorem updateDots_previousRelativeSourcePos (line : Line) (sp tp : Point)
    (st : DotsState) :
    (updateDots true line sp tp st).previousRelativeSourcePos = line.p1 - sp := by
  by_cases h : st.previousRelativeSourcePos = line.p1 - sp <;>
    simp [updateDots, h]

/-- After any `updateDots` run with animations on, the recorded relative
target position is the current one. -/
theorem updateDots_previousRelativeTargetPos (line : Line) (sp tp : Point)
    (st : DotsState) :
    (updateDots true line sp tp st).previousRelativeTargetPos = line.p2 - tp := by
  by_cases h : st.previousRelativeTargetPos = line.p2 - tp <;>
    simp [updateDots, h]

/-- `updateArrowhead` at a fixed line is idempotent on the wing items. -/
theorem updateArrowhead_idem (model : EdgeModel) (line : Line)
    (st : ArrowheadItems) :
    updateArrowhead model line (updateArrowhead model line st)
      = updateArrowhead model line st := by
  cases h : model.style.arrowMode <;>
    simp [updateArrowhead, h, updateSingleArrowhead, updateDoubleArrowhead,
      updateHiddenArrowhead]

/-- One `setLabelVisible` transition other than `Explicit(true)` never turns
both visibility flags on when they were not both on before. -/
theorem setLabelVisible_preserves_exclusion (env : LabelEnv) (visible : Bool)
    (vcr : VisibilityChangeReason) (st : LabelState)
    (hvcr : ¬(vcr = VisibilityChangeReason.Explicit ∧ visible = true))
    (hst : ¬(st.labelVisible = true ∧ st.dummyLabelVisible = true)) :
    ¬((setLabelVisible env visible vcr st).labelVisible = true
        ∧ (setLabelVisible env visible vcr st).dummyLabelVisible = true) := by
  cases vcr with
  | AvailableSpaceChanged =>
      simp only [setLabelVisible]
      cases isEnoughSpaceForLabel env && !env.labelText.isEmpty <;> simp
  | Explicit =>
      cases visible with
      | false => simp [setLabelVisible]
      | true => exact absurd ⟨rfl, rfl⟩ hvcr
  | Focused =>
      cases visible with
      | false => simpa [setLabelVisible] using hst
      | true => simp [setLabelVisible]
  | Timeout =>
      cases visible with
      | true => simpa [setLabelVisible] using hst
      | false =>
          simp only [setLabelVisible, Bool.not_false, if_true]
          split
          · simp
          · exact hst

/-! ### Claim theorems -/

/-- C2 counterexample: the claim that no `setLabelVisible` transition among
AvailableSpaceChanged, Explicit, Focused and Timeout can leave both the
label and the dummy label visible is false on the code: in an environment
where both labels fit and the dummy text is shorter (both eligible), the
`Explicit` transition with `visible = true` (fired by `Edge::setText` for
non-empty text) sets both visibility flags, because the Explicit branch
assigns `visible` to the label and to the dummy label alike. -/
theorem c2_counterexample :
    isEnoughSpaceForLabel sampleLabelEnv = true
      ∧ isEnoughSpaceForDummyLabel sampleLabelEnv = true
      ∧ dummyLabelTextIsShoterThanLabelText sampleLabelEnv = true
      ∧ setLabelVisible sampleLabelEnv true VisibilityChangeReason.Explicit ⟨false, false⟩
          = ⟨true, true⟩ := by
  decide

/-- C2 (amended): starting from a state in which the label and the dummy
label are not both visible, no sequence of `setLabelVisible` transitions
that avoids `Explicit` with `visible = true` can leave both the label and
the dummy label visible at the same time.  (`Explicit(true)` itself makes
both visible, see the counterexample.) -/
theorem c2_mutual_exclusion_amended :
    ∀ (inputs : List (LabelEnv × Bool × VisibilityChangeReason)) (st : LabelState),
      ¬(st.labelVisible = true ∧ st.dummyLabelVisible = true) →
      (∀ i ∈ inputs, ¬(i.2.2 = VisibilityChangeReason.Explicit ∧ i.2.1 = true)) →
      ¬((inputs.foldl (fun s i => setLabelVisible i.1 i.2.1 i.2.2 s) st).labelVisible = true
          ∧ (inputs.foldl (fun s i => setLabelVisible i.1 i.2.1 i.2.2 s) st).dummyLabelVisible = true) := by
  intro inputs
  induction inputs with
  | nil => intro st hst _; exact hst
  | cons i rest ih =>
      intro st hst hall
      simp only [List.foldl_cons]
      exact ih _
        (setLabelVisible_preserves_exclusion _ _ _ _ (hall i (by simp)) hst)
        (fun j hj => hall j (by simp [hj]))

/-- C2 witness: the amended theorem applied to a concrete two-step
transition sequence (hover enter then hover-leave timeout). -/
theorem c2_mutual_exclusion_amended_witness :
    ¬((LabelState.mk false false).labelVisible = true
        ∧ (LabelState.mk false false).dummyLabelVisible = true)
    ∧ (∀ i ∈ ([(sampleLabelEnv, true, VisibilityChangeReason.Focused),
                (sampleLabelEnv, false, VisibilityChangeReason.Timeout)]
          : List (LabelEnv × Bool × VisibilityChangeReason)),
        ¬(i.2.2 = VisibilityChangeReason.Explicit ∧ i.2.1 = true))
    ∧ ¬((([(sampleLabelEnv, true, VisibilityChangeReason.Focused),
           (sampleLabelEnv, false, VisibilityChangeReason.Timeout)]
          : List (LabelEnv × Bool × VisibilityChangeReason)).foldl
            (fun s i => setLabelVisible i.1 i.2.1 i.2.2 s)
            (LabelState.mk false false)).labelVisible = true
        ∧ (([(sampleLabelEnv, true, VisibilityChangeReason.Focused),
             (sampleLabelEnv, false, VisibilityChangeReason.Timeout)]
            : List (LabelEnv × Bool × VisibilityChangeReason)).foldl
              (fun s i => setLabelVisible i.1 i.2.1 i.2.2 s)
              (LabelState.mk false false)).dummyLabelVisible = true) :=
  ⟨by decide, by decide,
    c2_mutual_exclusion_amended _ _ (by decide) (by decide)⟩

/-- C3: given that both labels are in the scene, the
`AvailableSpaceChanged` transition yields Visible when the label box
overlaps neither endpoint node and the text is non-empty; otherwise
DummyVisible when the dummy box overlaps neither node and the dummy text is
strictly shorter than the real text; otherwise Hidden — for every geometry
and every previous state. -/
theorem c3_available_space_changed :
    ∀ (env : LabelEnv) (visible : Bool) (st : LabelState),
      env.labelHasScene = true → env.dummyLabelHasScene = true →
      (setLabelVisible env visible
          VisibilityChangeReason.AvailableSpaceChanged st).visibilityState
        = specAvailableSpaceChanged env := by
  intro env visible st h1 h2
  simp only [setLabelVisible, specAvailableSpaceChanged, LabelState.visibilityState,
    isEnoughSpaceForLabel, isEnoughSpaceForDummyLabel,
    dummyLabelTextIsShoterThanLabelText, h1, h2, Bool.true_and]
  cases env.labelSceneBoundingRect.intersects env.sourceNodeSceneBoundingRect <;>
    cases env.labelSceneBoundingRect.intersects env.targetNodeSceneBoundingRect <;>
      cases env.labelText.isEmpty <;>
        cases env.dummyLabelSceneBoundingRect.intersects env.sourceNodeSceneBoundingRect <;>
          cases env.dummyLabelSceneBoundingRect.intersects env.targetNodeSceneBoundingRect <;>
            cases decide (env.dummyLabelText.length < env.labelText.length) <;>
              simp

/-- C3 witness: the transition evaluated in the sample environment. -/
theorem c3_available_space_changed_witness :
    sampleLabelEnv.labelHasScene = true
    ∧ sampleLabelEnv.dummyLabelHasScene = true
    ∧ (setLabelVisible sampleLabelEnv true
          VisibilityChangeReason.AvailableSpaceChanged ⟨false, false⟩).visibilityState
        = specAvailableSpaceChanged sampleLabelEnv :=
  ⟨by decide, by decide,
    c3_available_space_changed sampleLabelEnv true ⟨false, false⟩ (by decide) (by decide)⟩

/-- C4: the label visibility timer is single shot with a 2000 ms interval
and is started by hover-leave; and when the label is visible, the `Timeout`
transition hides the label exactly when (the text is empty, or it is
non-empty and there is not enough space) and the label has no input focus
and the dummy label is not eligible; with the same condition but an eligible
dummy label (fits and strictly shorter) it falls back to DummyVisible; in
all other cases the label stays Visible. -/
theorem c4_timeout_transition :
    initLabelVisibilityTimer.intervalMs = 2000
    ∧ initLabelVisibilityTimer.singleShot = true
    ∧ (hoverLeaveEvent initLabelVisibilityTimer).running = true
    ∧ ∀ (env : LabelEnv) (st : LabelState),
        st.labelVisible = true →
        (((setLabelVisible env false VisibilityChangeReason.Timeout st).visibilityState
            = LabelVisibilityState.Hidden
          ↔ ((env.labelText.isEmpty
                || (!env.labelText.isEmpty && !isEnoughSpaceForLabel env))
              && !env.labelHasFocus) = true
            ∧ (isEnoughSpaceForDummyLabel env
                && dummyLabelTextIsShoterThanLabelText env) = false)
        ∧ (((env.labelText.isEmpty
              || (!env.labelText.isEmpty && !isEnoughSpaceForLabel env))
            && !env.labelHasFocus) = true →
            (isEnoughSpaceForDummyLabel env
                && dummyLabelTextIsShoterThanLabelText env) = true →
            (setLabelVisible env false VisibilityChangeReason.Timeout st).visibilityState
              = LabelVisibilityState.DummyVisible)
        ∧ (((env.labelText.isEmpty
              || (!env.labelText.isEmpty && !isEnoughSpaceForLabel env))
            && !env.labelHasFocus) = false →
            (setLabelVisible env false VisibilityChangeReason.Timeout st).visibilityState
              = LabelVisibilityState.Visible)) := by
  refine ⟨rfl, rfl, rfl, ?_⟩
  intro env st hst
  cases hcond : ((env.labelText.isEmpty
      || (!env.labelText.isEmpty && !isEnoughSpaceForLabel env))
    && !env.labelHasFocus) with
  | false =>
      refine ⟨?_, ?_, ?_⟩
      · simp [setLabelVisible, hcond, LabelState.visibilityState, hst]
      · intro h
        simp at h
      · intro _
        simp [setLabelVisible, hcond, LabelState.visibilityState, hst]
  | true =>
      cases helig : (isEnoughSpaceForDummyLabel env
          && dummyLabelTextIsShoterThanLabelText env) with
      | false =>
          refine ⟨?_, ?_, ?_⟩
          · simp [setLabelVisible, hcond, helig, LabelState.visibilityState]
          · intro _ h
            simp at h
          · intro h
            simp at h
      | true =>
          refine ⟨?_, ?_, ?_⟩
          · simp [setLabelVisible, hcond, helig, LabelState.visibilityState]
          · intro _ _
            simp [setLabelVisible, hcond, helig, LabelState.visibilityState]
          · intro h
            simp at h

/-- C4 witness: the Timeout transition evaluated in the sample environment
(enough space for the label, so the label stays visible), applying the main
theorem at a concrete state. -/
theorem c4_timeout_transition_witness :
    (LabelState.mk true false).labelVisible = true
    ∧ (((setLabelVisible sampleLabelEnv false VisibilityChangeReason.Timeout
          (LabelState.mk true false)).visibilityState = LabelVisibilityState.Hidden
        ↔ ((sampleLabelEnv.labelText.isEmpty
              || (!sampleLabelEnv.labelText.isEmpty
                  && !isEnoughSpaceForLabel sampleLabelEnv))
            && !sampleLabelEnv.labelHasFocus) = true
          ∧ (isEnoughSpaceForDummyLabel sampleLabelEnv
              && dummyLabelTextIsShoterThanLabelText sampleLabelEnv) = false)
      ∧ (((sampleLabelEnv.labelText.isEmpty
            || (!sampleLabelEnv.labelText.isEmpty
                && !isEnoughSpaceForLabel sampleLabelEnv))
          && !sampleLabelEnv.labelHasFocus) = true →
          (isEnoughSpaceForDummyLabel sampleLabelEnv
              && dummyLabelTextIsShoterThanLabelText sampleLabelEnv) = true →
          (setLabelVisible sampleLabelEnv false VisibilityChangeReason.Timeout
            (LabelState.mk true false)).visibilityState
            = LabelVisibilityState.DummyVisible)
      ∧ (((sampleLabelEnv.labelText.isEmpty
            || (!sampleLabelEnv.labelText.isEmpty
                && !isEnoughSpaceForLabel sampleLabelEnv))
          && !sampleLabelEnv.labelHasFocus) = false →
          (setLabelVisible sampleLabelEnv false VisibilityChangeReason.Timeout
            (LabelState.mk true false)).visibilityState
            = LabelVisibilityState.Visible)) :=
  ⟨rfl, (c4_timeout_transition.2.2.2 sampleLabelEnv (LabelState.mk true false) rfl)⟩

/-- C5: with a non-corner target anchor, a nonzero target direction vector
and a nonnegative edge width, the rendered target-side endpoint is the
target anchor point moved by exactly `0.5 * edgeWidth` along the target
direction vector, so its distance from the anchor is `0.5 * edgeWidth` —
for every edge width, in particular 1, 5 and 20. -/
theorem c5_target_endpoint_shrink :
    ∀ (model : EdgeModel) (sourceNode targetNode : NodeGeometry)
      (nearestPoints : AnchorPoint × AnchorPoint) (enableAnimations : Bool)
      (st : EdgeItems),
      nearestPoints.2.isCorner = false →
      targetNode.pos - (nearestPoints.2.location + targetNode.pos) ≠ ⟨0, 0⟩ →
      0 ≤ model.style.edgeWidth →
      (updateLine model sourceNode targetNode nearestPoints enableAnimations st).line.p2
          = (nearestPoints.2.location + targetNode.pos)
            - (0.5 * model.style.edgeWidth)
              • normalize (targetNode.pos - (nearestPoints.2.location + targetNode.pos))
      ∧ Point.norm
          ((updateLine model sourceNode targetNode nearestPoints enableAnimations st).line.p2
            - (nearestPoints.2.location + targetNode.pos))
        = 0.5 * model.style.edgeWidth := by
  intro model sourceNode targetNode nearestPoints enableAnimations st hc hnz hw
  have hkey : (updateLine model sourceNode targetNode nearestPoints enableAnimations st).line.p2
      = (nearestPoints.2.location + targetNode.pos)
        - (0.5 * model.style.edgeWidth)
          • normalize (targetNode.pos - (nearestPoints.2.location + targetNode.pos)) := by
    unfold updateLine
    simp only [hc, Bool.false_eq_true, if_false]
    ext <;> simp <;> ring
  refine ⟨hkey, ?_⟩
  rw [hkey, point_sub_smul_sub_cancel, point_norm_smul, norm_normalize _ hnz,
    mul_one, abs_neg, abs_of_nonneg (mul_nonneg (by norm_num) hw)]

/-- C5 witness: the theorem applied to the sample configuration with edge
width 5 (anchors clear of corners, direction vector (10, 0)). -/
theorem c5_target_endpoint_shrink_witness :
    sampleAnchors.2.isCorner = false
    ∧ sampleTargetNode.pos - (sampleAnchors.2.location + sampleTargetNode.pos) ≠ ⟨0, 0⟩
    ∧ (0 : ℝ) ≤ 5
    ∧ ((updateLine ⟨false, "", ⟨ArrowMode.Single, 10, 5, false⟩⟩ sampleSourceNode
          sampleTargetNode sampleAnchors false initialEdgeItems).line.p2
          = (sampleAnchors.2.location + sampleTargetNode.pos)
            - (0.5 * (5 : ℝ))
              • normalize (sampleTargetNode.pos
                  - (sampleAnchors.2.location + sampleTargetNode.pos))
        ∧ Point.norm
            ((updateLine ⟨false, "", ⟨ArrowMode.Single, 10, 5, false⟩⟩ sampleSourceNode
                sampleTargetNode sampleAnchors false initialEdgeItems).line.p2
              - (sampleAnchors.2.location + sampleTargetNode.pos))
          = 0.5 * (5 : ℝ)) :=
  ⟨rfl,
   by
     intro h
     have hx := congrArg Point.x h
     simp [sampleAnchors, sampleTargetNode] at hx,
   by norm_num,
   c5_target_endpoint_shrink ⟨false, "", ⟨ArrowMode.Single, 10, 5, false⟩⟩
     sampleSourceNode sampleTargetNode sampleAnchors false initialEdgeItems rfl
     (by
       intro h
       have hx := congrArg Point.x h
       simp [sampleAnchors, sampleTargetNode] at hx)
     (by norm_num)⟩

/-- C6: a corner anchor with a well-defined unit direction and nonnegative
corner radius is nudged by exactly `0.3 * cornerRadius` along its direction
vector (on the target side, measured before the width shrink); and when both
corner radii are zero, the nearest-point contract forces both `isCorner`
flags to false, so the nudge is a no-op: the endpoints are the translated
anchors (with only the width shrink applied on the target side). -/
theorem c6_corner_nudge :
    ∀ (model : EdgeModel) (sourceNode targetNode : NodeGeometry)
      (nearestPoints : AnchorPoint × AnchorPoint) (enableAnimations : Bool)
      (st : EdgeItems),
      (nearestPoints.1.isCorner = true →
        sourceNode.pos - (nearestPoints.1.location + sourceNode.pos) ≠ ⟨0, 0⟩ →
        0 ≤ sourceNode.cornerRadius →
        Point.norm
            ((updateLine model sourceNode targetNode nearestPoints enableAnimations st).line.p1
              - (nearestPoints.1.location + sourceNode.pos))
          = 0.3 * sourceNode.cornerRadius)
      ∧ (nearestPoints.2.isCorner = true →
          targetNode.pos - (nearestPoints.2.location + targetNode.pos) ≠ ⟨0, 0⟩ →
          0 ≤ targetNode.cornerRadius →
          Point.norm
              ((updateLine model sourceNode targetNode nearestPoints enableAnimations st).line.p2
                + (0.5 : ℝ) • (model.style.edgeWidth
                    • normalize (targetNode.pos - (nearestPoints.2.location + targetNode.pos)))
                - (nearestPoints.2.location + targetNode.pos))
            = 0.3 * targetNode.cornerRadius)
      ∧ (sourceNode.cornerRadius = 0 → targetNode.cornerRadius = 0 →
          nearestPoints.1.respectsCornerContract sourceNode.cornerRadius →
          nearestPoints.2.respectsCornerContract targetNode.cornerRadius →
          nearestPoints.1.isCorner = false ∧ nearestPoints.2.isCorner = false
          ∧ (updateLine model sourceNode targetNode nearestPoints enableAnimations st).line.p1
              = nearestPoints.1.location + sourceNode.pos
          ∧ (updateLine model sourceNode targetNode nearestPoints enableAnimations st).line.p2
              = (nearestPoints.2.location + targetNode.pos)
                - (0.5 : ℝ) • (model.style.edgeWidth
                    • normalize (targetNode.pos - (nearestPoints.2.location + targetNode.pos)))) := by
  intro model sourceNode targetNode nearestPoints enableAnimations st
  refine ⟨?_, ?_, ?_⟩
  · intro hc hnz hr
    have hline : (updateLine model sourceNode targetNode nearestPoints enableAnimations st).line.p1
        = (nearestPoints.1.location + sourceNode.pos)
          + (0.3 : ℝ) • (sourceNode.cornerRadius
              • normalize (sourceNode.pos - (nearestPoints.1.location + sourceNode.pos))) := by
      unfold updateLine
      simp only [hc, if_true]
    rw [hline, point_add_sub_cancel_left, point_smul_smul, point_norm_smul,
      norm_normalize _ hnz, mul_one,
      abs_of_nonneg (mul_nonneg (by norm_num) hr)]
  · intro hc hnz hr
    have hin : (updateLine model sourceNode targetNode nearestPoints enableAnimations st).line.p2
        + (0.5 : ℝ) • (model.style.edgeWidth
            • normalize (targetNode.pos - (nearestPoints.2.location + targetNode.pos)))
        - (nearestPoints.2.location + targetNode.pos)
        = ((0.3 : ℝ) * targetNode.cornerRadius)
            • normalize (targetNode.pos - (nearestPoints.2.location + targetNode.pos)) := by
      unfold updateLine
      simp only [hc, if_true]
      ext <;> simp <;> ring
    rw [hin, point_norm_smul, norm_normalize _ hnz, mul_one,
      abs_of_nonneg (mul_nonneg (by norm_num) hr)]
  · intro h1 h2 hcon1 hcon2
    have hic1 : nearestPoints.1.isCorner = false := by
      cases hb : nearestPoints.1.isCorner
      · rfl
      · have := hcon1 hb
        rw [h1] at this
        exact absurd this (lt_irrefl 0)
    have hic2 : nearestPoints.2.isCorner = false := by
      cases hb : nearestPoints.2.isCorner
      · rfl
      · have := hcon2 hb
        rw [h2] at this
        exact absurd this (lt_irrefl 0)
    refine ⟨hic1, hic2, ?_, ?_⟩
    · unfold updateLine
      simp only [hic1, Bool.false_eq_true, if_false]
      ext <;> simp
    · unfold updateLine
      simp only [hic2, Bool.false_eq_true, if_false]
      ext <;> simp

/-- C6 witness: the no-op part of the theorem applied to the sample
configuration (both corner radii zero, anchors honouring the contract). -/
theorem c6_corner_nudge_witness :
    sampleSourceNode.cornerRadius = 0
    ∧ sampleTargetNode.cornerRadius = 0
    ∧ (sampleAnchors.1.isCorner = false ∧ sampleAnchors.2.isCorner = false
       ∧ (updateLine sampleSingleModel sampleSourceNode sampleTargetNode sampleAnchors
            false initialEdgeItems).line.p1
           = sampleAnchors.1.location + sampleSourceNode.pos
       ∧ (updateLine sampleSingleModel sampleSourceNode sampleTargetNode sampleAnchors
            false initialEdgeItems).line.p2
           = (sampleAnchors.2.location + sampleTargetNode.pos)
             - (0.5 : ℝ) • (sampleSingleModel.style.edgeWidth
                 • normalize (sampleTargetNode.pos
                     - (sampleAnchors.2.location + sampleTargetNode.pos)))) :=
  ⟨rfl, rfl,
   (c6_corner_nudge sampleSingleModel sampleSourceNode sampleTargetNode sampleAnchors
       false initialEdgeItems).2.2 rfl rfl
     (fun hb => absurd hb (by simp [sampleAnchors]))
     (fun hb => absurd hb (by simp [sampleAnchors]))⟩

/-- C7: the decay animation of an endpoint dot is restarted by a geometry
recompute exactly when the endpoint position relative to the owning node
differs from the recorded value; translating line and nodes together never
restarts either animation on the following recompute, while moving the
source endpoint alone always restarts the source animation. -/
theorem c7_pulse_retrigger :
    ∀ (line : Line) (sourceNodePos targetNodePos : Point) (st : DotsState),
      (((updateDots true line sourceNodePos targetNodePos st).sourceAnimationRestarted = true)
        ↔ line.p1 - sourceNodePos ≠ st.previousRelativeSourcePos)
      ∧ (((updateDots true line sourceNodePos targetNodePos st).targetAnimationRestarted = true)
        ↔ line.p2 - targetNodePos ≠ st.previousRelativeTargetPos)
      ∧ (∀ v : Point,
          (updateDots true ⟨line.p1 + v, line.p2 + v⟩ (sourceNodePos + v) (targetNodePos + v)
              (updateDots true line sourceNodePos targetNodePos st)).sourceAnimationRestarted
              = false
          ∧ (updateDots true ⟨line.p1 + v, line.p2 + v⟩ (sourceNodePos + v) (targetNodePos + v)
              (updateDots true line sourceNodePos targetNodePos st)).targetAnimationRestarted
              = false)
      ∧ (∀ line2 : Line, line2.p1 ≠ line.p1 →
          (updateDots true line2 sourceNodePos targetNodePos
              (updateDots true line sourceNodePos targetNodePos st)).sourceAnimationRestarted
            = true) := by
  intro line sp tp st
  refine ⟨?_, ?_, ?_, ?_⟩
  · constructor
    · intro hre heq
      have h : st.previousRelativeSourcePos = line.p1 - sp := heq.symm
      simp [updateDots, h] at hre
    · intro hne
      have h : ¬(st.previousRelativeSourcePos = line.p1 - sp) := fun he => hne he.symm
      simp [updateDots, h]
  · constructor
    · intro hre heq
      have h : st.previousRelativeTargetPos = line.p2 - tp := heq.symm
      simp [updateDots, h] at hre
    · intro hne
      have h : ¬(st.previousRelativeTargetPos = line.p2 - tp) := fun he => hne he.symm
      simp [updateDots, h]
  · intro v
    have h1 := updateDots_previousRelativeSourcePos line sp tp st
    have h2 := updateDots_previousRelativeTargetPos line sp tp st
    set st1 := updateDots true line sp tp st with hst1
    have hcondS : st1.previousRelativeSourcePos = line.p1 + v - (sp + v) := by
      rw [h1]
      ext <;> simp
    have hcondT : st1.previousRelativeTargetPos = line.p2 + v - (tp + v) := by
      rw [h2]
      ext <;> simp
    constructor
    · simp [updateDots, hcondS]
    · simp [updateDots, hcondT]
  · intro line2 hne
    have h1 := updateDots_previousRelativeSourcePos line sp tp st
    set st1 := updateDots true line sp tp st with hst1
    have hcond : ¬(st1.previousRelativeSourcePos = line2.p1 - sp) := by
      rw [h1]
      intro he
      exact hne (point_sub_right_cancel he).symm
    simp [updateDots, hcond]

/-- C7 witness: the source animation restarts when the source endpoint moves
inside the node, applying the main theorem at a concrete line. -/
theorem c7_pulse_retrigger_witness :
    ((Line.mk ⟨2, 0⟩ ⟨1, 0⟩).p1 ≠ (Line.mk ⟨0, 0⟩ ⟨1, 0⟩).p1)
    ∧ (updateDots true (Line.mk ⟨2, 0⟩ ⟨1, 0⟩) ⟨0, 0⟩ ⟨1, 0⟩
          (updateDots true (Line.mk ⟨0, 0⟩ ⟨1, 0⟩) ⟨0, 0⟩ ⟨1, 0⟩
            initialDotsState)).sourceAnimationRestarted = true :=
  ⟨by
     intro h
     have hx := congrArg Point.x h
     norm_num at hx,
   (c7_pulse_retrigger (Line.mk ⟨0, 0⟩ ⟨1, 0⟩) ⟨0, 0⟩ ⟨1, 0⟩ initialDotsState).2.2.2
     (Line.mk ⟨2, 0⟩ ⟨1, 0⟩)
     (by
       intro h
       have hx := congrArg Point.x h
       norm_num at hx)⟩

/-- C8: geometry recomputation is idempotent: a second `updateLine` with the
same inputs leaves the segment and all arrowhead wing items (lines and
visibility alike) unchanged. -/
theorem c8_geometry_idempotent :
    ∀ (model : EdgeModel) (sourceNode targetNode : NodeGeometry)
      (nearestPoints : AnchorPoint × AnchorPoint) (enableAnimations : Bool)
      (st : EdgeItems),
      (updateLine model sourceNode targetNode nearestPoints enableAnimations
          (updateLine model sourceNode targetNode nearestPoints enableAnimations st)).line
        = (updateLine model sourceNode targetNode nearestPoints enableAnimations st).line
      ∧ (updateLine model sourceNode targetNode nearestPoints enableAnimations
          (updateLine model sourceNode targetNode nearestPoints enableAnimations st)).arrowheads
        = (updateLine model sourceNode targetNode nearestPoints enableAnimations
            st).arrowheads := by
  intro model sourceNode targetNode nearestPoints enableAnimations st
  exact ⟨rfl, updateArrowhead_idem model _ st.arrowheads⟩

/-- C9: the degenerate geometry inputs have defined fallback outputs: a zero
direction vector normalises to (0, 0) with no division by zero, a
zero-length segment has angle 0, and a target anchor that coincides with the
target node position (zero direction vector) leaves the rendered target
endpoint exactly at the node position, with no offset applied. -/
theorem c9_degenerate_inputs :
    normalize ⟨0, 0⟩ = ⟨0, 0⟩
    ∧ (∀ p : Point, lineAngle ⟨p, p⟩ = 0)
    ∧ (∀ (model : EdgeModel) (sourceNode : NodeGeometry) (targetNodePos : Point)
        (cornerRadius : ℝ) (a1 : AnchorPoint) (isCorner2 : Bool)
        (enableAnimations : Bool) (st : EdgeItems),
        (updateLine model sourceNode ⟨targetNodePos, cornerRadius⟩
            (a1, ⟨⟨0, 0⟩, isCorner2⟩) enableAnimations st).line.p2 = targetNodePos) := by
  refine ⟨normalize_zero, ?_, ?_⟩
  · intro p
    have hc : ((⟨(0 : ℝ), (0 : ℝ)⟩ : ℂ)) = 0 := by
      simp [Complex.ext_iff]
    simp [lineAngle, atan2, hc, Complex.arg_zero]
  · intro model sourceNode targetNodePos cornerRadius a1 isCorner2 enableAnimations st
    have harg : targetNodePos - ((⟨0, 0⟩ : Point) + targetNodePos) = (⟨0, 0⟩ : Point) := by
      ext <;> simp
    unfold updateLine
    simp only [harg, normalize_zero]
    cases isCorner2 <;> ext <;> simp

/-- C1 counterexample: for the sample non-reversed Single-mode recompute the
claim places the two wings at the begin end defined as the segment end
nearer the source node, which is `line.p1 = (10, 0)` here; but the code
anchors both visible wings at `(90, 0)`, the target-near end `line.p2`, and
hides the two end items, so the source-near end carries no wing at all. -/
theorem c1_counterexample :
    sampleSingleModel.reversed = false
    ∧ (updateLine sampleSingleModel sampleSourceNode sampleTargetNode sampleAnchors
        false initialEdgeItems).line.p1 = ⟨10, 0⟩
    ∧ (updateLine sampleSingleModel sampleSourceNode sampleTargetNode sampleAnchors
        false initialEdgeItems).arrowheads.arrowheadBeginLeft.visible = true
    ∧ (updateLine sampleSingleModel sampleSourceNode sampleTargetNode sampleAnchors
        false initialEdgeItems).arrowheads.arrowheadBeginRight.visible = true
    ∧ (updateLine sampleSingleModel sampleSourceNode sampleTargetNode sampleAnchors
        false initialEdgeItems).arrowheads.arrowheadEndLeft.visible = false
    ∧ (updateLine sampleSingleModel sampleSourceNode sampleTargetNode sampleAnchors
        false initialEdgeItems).arrowheads.arrowheadEndRight.visible = false
    ∧ (updateLine sampleSingleModel sampleSourceNode sampleTargetNode sampleAnchors
        false initialEdgeItems).arrowheads.arrowheadBeginLeft.line.p1 = ⟨90, 0⟩
    ∧ (updateLine sampleSingleModel sampleSourceNode sampleTargetNode sampleAnchors
        false initialEdgeItems).arrowheads.arrowheadBeginRight.line.p1 = ⟨90, 0⟩
    ∧ ((⟨90, 0⟩ : Point) ≠ ⟨10, 0⟩) := by
  refine ⟨rfl, ?_, rfl, rfl, rfl, rfl, ?_, ?_, ?_⟩
  · ext <;>
      simp [updateLine, sampleSingleModel, sampleSourceNode, sampleTargetNode,
        sampleAnchors]
  · ext <;>
      simp [updateLine, updateArrowhead, updateSingleArrowhead, sampleSingleModel,
        sampleSourceNode, sampleTargetNode, sampleAnchors] <;>
      norm_num
  · ext <;>
      simp [updateLine, updateArrowhead, updateSingleArrowhead, sampleSingleModel,
        sampleSourceNode, sampleTargetNode, sampleAnchors] <;>
      norm_num
  · intro h
    have hx := congrArg Point.x h
    norm_num at hx

/-- C1 (amended): for every recompute with Single arrow mode and
nonnegative arrow size, exactly the two begin wings are visible, both
anchored at the begin end — the segment end nearer the target unless
`reversed` is set, in which case the source end — each wing tip being the
anchor plus a vector of length `arrowSize` at `angleBegin ± 150` degrees,
and the two end wings are hidden. -/
theorem c1_single_arrowhead_amended :
    ∀ (model : EdgeModel) (sourceNode targetNode : NodeGeometry)
      (nearestPoints : AnchorPoint × AnchorPoint) (enableAnimations : Bool)
      (st : EdgeItems),
      model.style.arrowMode = ArrowMode.Single →
      0 ≤ model.style.arrowSize →
      singleArrowheadSpec model
        (updateLine model sourceNode targetNode nearestPoints enableAnimations st) := by
  intro model sourceNode targetNode nearestPoints enableAnimations st hmode hsz
  have harr : (updateLine model sourceNode targetNode nearestPoints enableAnimations st).arrowheads
      = updateSingleArrowhead model
          (updateLine model sourceNode targetNode nearestPoints enableAnimations st).line
          st.arrowheads := by
    show updateArrowhead model
        (updateLine model sourceNode targetNode nearestPoints enableAnimations st).line
        st.arrowheads = _
    simp [updateArrowhead, hmode]
  have key : ∀ (b : Point) (t : ℝ),
      Point.norm ((b + model.style.arrowSize • (⟨Real.cos t, Real.sin t⟩ : Point)) - b)
        = model.style.arrowSize := by
    intro b t
    rw [point_add_sub_cancel_left, point_norm_smul, point_norm_cos_sin, mul_one,
      abs_of_nonneg hsz]
  rw [singleArrowheadSpec, harr]
  exact ⟨rfl, rfl, rfl, rfl, rfl, rfl, rfl, rfl, key _ _, key _ _⟩

/-- C1 witness: the amended theorem at the sample Single-mode recompute. -/
theorem c1_single_arrowhead_amended_witness :
    sampleSingleModel.style.arrowMode = ArrowMode.Single
    ∧ (0 : ℝ) ≤ sampleSingleModel.style.arrowSize
    ∧ singleArrowheadSpec sampleSingleModel
        (updateLine sampleSingleModel sampleSourceNode sampleTargetNode sampleAnchors
          false initialEdgeItems) :=
  ⟨rfl, by norm_num [sampleSingleModel],
   c1_single_arrowhead_amended sampleSingleModel sampleSourceNode sampleTargetNode
     sampleAnchors false initialEdgeItems rfl (by norm_num [sampleSingleModel])⟩

/-- C10: deserialising the serialised document (`fromXml` after `toXml`)
yields nodes with the same indices and texts, and each location coordinate
equal to the original multiplied by 1000, truncated towards zero, then
divided by 1000; a coordinate survives exactly iff it is an integer
multiple of 1/1000. -/
theorem c10_serializer_roundtrip :
    ∀ nodes : List Serializer.NodeData,
      Serializer.fromXml (Serializer.toXml nodes)
        = nodes.map (fun n =>
            { n with
                locationX :=
                  (Serializer.truncateToInt (n.locationX * Serializer.SCALE) : ℚ)
                    / Serializer.SCALE
                locationY :=
                  (Serializer.truncateToInt (n.locationY * Serializer.SCALE) : ℚ)
                    / Serializer.SCALE })
      ∧ (Serializer.fromXml (Serializer.toXml nodes)).map Serializer.NodeData.index
          = nodes.map Serializer.NodeData.index
      ∧ (Serializer.fromXml (Serializer.toXml nodes)).map Serializer.NodeData.text
          = nodes.map Serializer.NodeData.text
      ∧ ∀ q : ℚ,
          ((Serializer.truncateToInt (q * Serializer.SCALE) : ℚ) / Serializer.SCALE = q
            ↔ ∃ k : ℤ, q = (k : ℚ) / 1000) := by
  intro nodes
  refine ⟨?_, ?_, ?_, ?_⟩
  · simp only [Serializer.fromXml, Serializer.toXml, List.map_map]
    rfl
  · simp only [Serializer.fromXml, Serializer.toXml, List.map_map]
    rfl
  · simp only [Serializer.fromXml, Serializer.toXml, List.map_map]
    rfl
  · intro q
    constructor
    · intro hq
      exact ⟨Serializer.truncateToInt (q * Serializer.SCALE),
        by simpa [Serializer.SCALE] using hq.symm⟩
    · rintro ⟨k, hk⟩
      subst hk
      have hscale : (k : ℚ) / 1000 * Serializer.SCALE = (k : ℚ) := by
        rw [Serializer.SCALE]
        field_simp
      rw [hscale]
      have ht : Serializer.truncateToInt (k : ℚ) = k := by
        unfold Serializer.truncateToInt
        by_cases h0 : (0 : ℚ) ≤ (k : ℚ)
        · rw [if_pos h0, Int.floor_intCast]
        · rw [if_neg h0, Int.ceil_intCast]
      rw [ht, Serializer.SCALE]

end Heimer
